import Mathlib

/-!
Verification of the MLM pretraining data pipeline (`pretraining/roberta/data_utils.py`).

The Python class `TrainingDataset` is embedded shallowly:

* external collaborators (word segmenter, tokenizer) are abstract functions,
  exactly as the source treats them (pluggable callables);
* `np.random.random(len(words))` is modelled by an explicit list of rational
  draws `rands` (the float comparison `rand <= mask_rate` becomes the
  corresponding `ℚ` comparison);
* the per-example tfrecord feature map (`tf.train.Example` with two
  `Int64List` features keyed `token_ids` / `mask_ids`) is modelled at the
  feature level by the structure `TFExample`; the protobuf byte framing is
  an opaque external library and is not re-modelled.
-/

/-- Configuration and special-token state of the Python class
`TrainingDataset` (`__init__`): CLS id, SEP id, `mask_rate`, `padding_length`. -/
structure TrainingDataset where
  token_cls_id : Nat
  token_sep_id : Nat
  mask_rate : ℚ
  padding_length : Nat

/-- Embedding of `TrainingDataset.padding`: `sequence = sequence[:padding_length]`
then `sequence + [0] * (padding_length - len(sequence))`. -/
def TrainingDataset.padding (td : TrainingDataset) (sequence : List Nat) : List Nat :=
  let s := sequence.take td.padding_length
  s ++ List.replicate (td.padding_length - s.length) 0

/-- Embedding of `TrainingDataset.sentence_process`.  `word_segment` splits the
text into words, `rands` models `np.random.random(len(words))`, and for each
`(rand, word)` pair the loop appends the word's sub-tokens and the replicated
per-word mask decision `1 if rand <= mask_rate else 0`; finally the token
strings are converted to ids by `tokens_to_ids`. -/
def TrainingDataset.sentence_process {S W T : Type} (td : TrainingDataset)
    (word_segment : S → List W) (tokenize : W → List T)
    (tokens_to_ids : List T → List Nat) (rands : List ℚ) (text : S) :
    List Nat × List Nat :=
  let words := word_segment text
  let r := (rands.zip words).foldl
    (fun (acc : List T × List Nat) (rw : ℚ × W) =>
      (acc.1 ++ tokenize rw.2,
       acc.2 ++ List.replicate (tokenize rw.2).length
         (if rw.1 ≤ td.mask_rate then 1 else 0)))
    ([], [])
  (tokens_to_ids r.1, r.2)

/-- One iteration of the loop body of `TrainingDataset.paragraph_process`,
acting on the state `(results, token_ids, mask_ids)` with the current
sentence's encoding `enc`: truncate the encoding to `padding_length - 2`,
then, if `len(token_ids) + len(_token_ids) > padding_length - 1`, append the
SEP id / mask 0, pad both sequences, store the example and reset the
accumulator to `([token_cls_id], [0])`; finally extend the accumulator with
the truncated encoding. -/
def TrainingDataset.paragraphStep (td : TrainingDataset)
    (st : List (List Nat × List Nat) × List Nat × List Nat)
    (enc : List Nat × List Nat) :
    List (List Nat × List Nat) × List Nat × List Nat :=
  let _token_ids := enc.1.take (td.padding_length - 2)
  let _mask_ids := enc.2.take (td.padding_length - 2)
  let s :=
    if st.2.1.length + _token_ids.length > td.padding_length - 1 then
      (st.1 ++ [(td.padding (st.2.1 ++ [td.token_sep_id]),
                 td.padding (st.2.2 ++ [0]))],
       ([td.token_cls_id], ([0] : List Nat)))
    else st
  (s.1, s.2.1 ++ _token_ids, s.2.2 ++ _mask_ids)

/-- The full fold of `TrainingDataset.paragraph_process` over the texts,
returning the final state `(results, token_ids, mask_ids)` (the Python local
variables at the end of the loop).  `sentence` abstracts the call
`self.sentence_process(text)`. -/
def TrainingDataset.paragraph_processFull {S : Type} (td : TrainingDataset)
    (sentence : S → List Nat × List Nat) (texts : List S) :
    List (List Nat × List Nat) × List Nat × List Nat :=
  texts.foldl (fun st text => td.paragraphStep st (sentence text))
    ([], ([td.token_cls_id], [0]))

/-- Embedding of `TrainingDataset.paragraph_process`: only `results` is
returned; the accumulator left at loop end is discarded. -/
def TrainingDataset.paragraph_process {S : Type} (td : TrainingDataset)
    (sentence : S → List Nat × List Nat) (texts : List S) :
    List (List Nat × List Nat) :=
  (td.paragraph_processFull sentence texts).1

/-- The feature map of one serialized `tf.train.Example` as built by
`TrainingDataset.tfrecord_serialize`: two integer-list features keyed
`token_ids` and `mask_ids`.  The protobuf byte framing of the external
library is opaque and faithfully invertible, so records are modelled at this
feature level. -/
structure TFExample where
  token_ids : List Nat
  mask_ids : List Nat
deriving DecidableEq

/-- Per-example serialization performed inside the loop of
`TrainingDataset.tfrecord_serialize`. -/
def tfrecord_serialize_one (p : List Nat × List Nat) : TFExample :=
  { token_ids := p.1, mask_ids := p.2 }

/-- Embedding of `TrainingDataset.tfrecord_serialize`: the loop appending
each serialized example to `new_results`. -/
def tfrecord_serialize (results : List (List Nat × List Nat)) : List TFExample :=
  results.foldl (fun new_results p => new_results ++ [tfrecord_serialize_one p]) []

/-- Modelled from the spec: the semantics of `tf.io.FixedLenFeature([n], tf.int64)`
under `tf.io.parse_single_example` — an external-library behaviour the source
only configures.  Per spec §6, the field is required and fixed-length: parsing
yields the stored list iff its length is exactly `n`, otherwise it fails. -/
def FixedLenFeature (n : Nat) (v : List Nat) : Option (List Nat) :=
  if v.length = n then some v else none

/-- Embedding of `_parse_function` inside `TrainingDataset.load_tfrecord`:
parse the two features with `FixedLenFeature([padding_length], tf.int64)` and
return the pair `(token_ids, mask_ids)`; parsing fails if either feature does
not have the declared fixed length. -/
def parse_function (padding_length : Nat) (e : TFExample) :
    Option (List Nat × List Nat) :=
  match FixedLenFeature padding_length e.token_ids,
        FixedLenFeature padding_length e.mask_ids with
  | some t, some m => some (t, m)
  | _, _ => none

/-- Invariant maintained by the `paragraph_process` accumulator
`(token_ids, mask_ids)`: equal lengths, nonempty, at most
`padding_length - 1` long, and starting with the CLS id / mask 0. -/
def AccInv (td : TrainingDataset) (t m : List Nat) : Prop :=
  t.length = m.length ∧ t.length + 1 ≤ td.padding_length ∧
  (∃ t0, t = td.token_cls_id :: t0) ∧ (∃ m0, m = 0 :: m0)

/-- Concrete instance used by the spec's worked examples: capacity 10,
CLS id 1, SEP id 2. -/
def TD10 : TrainingDataset :=
  { token_cls_id := 1, token_sep_id := 2, mask_rate := 15/100, padding_length := 10 }

/-- Concrete balanced unit encodings for witness instantiations. -/
def wunits : Fin 3 → List Nat × List Nat
  | 0 => ([3,4,5,6], [0,0,0,0])
  | 1 => ([11,12,13,14], [0,0,1,0])
  | 2 => ([21,22,23,24], [0,0,0,0])

/-- Concrete word segmenter for witness instantiations. -/
def wseg : Unit → List Nat := fun _ => [7, 8]

/-- Concrete tokenizer for witness instantiations: each word yields two
sub-tokens. -/
def wtok : Nat → List Nat := fun w => [w, w + 10]

/-- Concrete token-to-id conversion for witness instantiations (identity,
hence length-preserving). -/
def wids : List Nat → List Nat := fun ts => ts

/-- Padding always produces a sequence of length exactly `padding_length`. -/
lemma padding_length_eq (td : TrainingDataset) (s : List Nat) :
    (td.padding s).length = td.padding_length := by
  simp only [TrainingDataset.padding, List.length_append, List.length_take,
    List.length_replicate]
  omega

/-- On sequences no longer than `padding_length`, padding only appends zeros. -/
lemma padding_eq_of_le (td : TrainingDataset) (s : List Nat)
    (h : s.length ≤ td.padding_length) :
    td.padding s = s ++ List.replicate (td.padding_length - s.length) 0 := by
  simp only [TrainingDataset.padding, List.take_of_length_le h]

/-- A list of zeros reads 0 at every position (in range via the element,
out of range via the default). -/
lemma getD_replicate_zero (k i : Nat) : (List.replicate k (0 : Nat)).getD i 0 = 0 := by
  rcases Nat.lt_or_ge i k with h | h
  · simp [List.getD, List.getElem?_replicate, h]
  · simp [List.getD_eq_default]

/-- The loop body in the overflow case: close the window, emit, reset,
then append the truncated encoding. -/
lemma paragraphStep_overflow (td : TrainingDataset)
    (results : List (List Nat × List Nat)) (t m : List Nat)
    (enc : List Nat × List Nat)
    (h : td.padding_length - 1 < t.length + (enc.1.take (td.padding_length - 2)).length) :
    td.paragraphStep (results, t, m) enc =
      (results ++ [(td.padding (t ++ [td.token_sep_id]), td.padding (m ++ [0]))],
       td.token_cls_id :: enc.1.take (td.padding_length - 2),
       0 :: enc.2.take (td.padding_length - 2)) := by
  simp only [TrainingDataset.paragraphStep]
  rw [if_pos h]
  rfl

/-- The loop body in the fitting case: just extend the accumulator. -/
lemma paragraphStep_fits (td : TrainingDataset)
    (results : List (List Nat × List Nat)) (t m : List Nat)
    (enc : List Nat × List Nat)
    (h : ¬ td.padding_length - 1 < t.length + (enc.1.take (td.padding_length - 2)).length) :
    td.paragraphStep (results, t, m) enc =
      (results, t ++ enc.1.take (td.padding_length - 2),
       m ++ enc.2.take (td.padding_length - 2)) := by
  simp only [TrainingDataset.paragraphStep]
  rw [if_neg h]

/-- Each loop iteration emits at most one example. -/
lemma paragraph_foldl_length_le {S : Type} (td : TrainingDataset)
    (sentence : S → List Nat × List Nat) :
    ∀ (texts : List S) (results : List (List Nat × List Nat)) (t m : List Nat),
      ((texts.foldl (fun st x => td.paragraphStep st (sentence x))
        (results, t, m)).1).length ≤ results.length + texts.length := by
  intro texts
  induction texts with
  | nil => intro results t m; simp
  | cons x xs ih =>
    intro results t m
    simp only [List.foldl_cons]
    by_cases h : td.padding_length - 1 <
        t.length + ((sentence x).1.take (td.padding_length - 2)).length
    · rw [paragraphStep_overflow td results t m (sentence x) h]
      have := ih (results ++ [(td.padding (t ++ [td.token_sep_id]),
        td.padding (m ++ [0]))])
        (td.token_cls_id :: (sentence x).1.take (td.padding_length - 2))
        (0 :: (sentence x).2.take (td.padding_length - 2))
      simp only [List.length_append, List.length_cons, List.length_nil] at this ⊢
      omega
    · rw [paragraphStep_fits td results t m (sentence x) h]
      have := ih results (t ++ (sentence x).1.take (td.padding_length - 2))
        (m ++ (sentence x).2.take (td.padding_length - 2))
      simp only [List.length_cons] at this ⊢
      omega

/-- If the remaining encodings all fit, the loop never emits anything new. -/
lemma paragraph_foldl_no_overflow {S : Type} (td : TrainingDataset)
    (sentence : S → List Nat × List Nat) :
    ∀ (texts : List S) (results : List (List Nat × List Nat)) (t m : List Nat),
      t.length + (texts.map
        (fun x => min (td.padding_length - 2) (sentence x).1.length)).sum ≤
        td.padding_length - 1 →
      (texts.foldl (fun st x => td.paragraphStep st (sentence x))
        (results, t, m)).1 = results := by
  intro texts
  induction texts with
  | nil => intro results t m _; rfl
  | cons x xs ih =>
    intro results t m h
    simp only [List.map_cons, List.sum_cons] at h
    have htk : ((sentence x).1.take (td.padding_length - 2)).length =
        min (td.padding_length - 2) (sentence x).1.length := by
      simp [List.length_take]
    have hno : ¬ td.padding_length - 1 <
        t.length + ((sentence x).1.take (td.padding_length - 2)).length := by
      omega
    simp only [List.foldl_cons]
    rw [paragraphStep_fits td results t m (sentence x) hno]
    apply ih
    simp only [List.length_append, htk]
    omega

/-- C9: the padding helper always returns a sequence of length exactly
`padding_length`; longer inputs are truncated to the first `padding_length`
elements, shorter inputs are right-padded with zeros, and padding is
idempotent. -/
theorem padding_spec (td : TrainingDataset) (s : List Nat) :
    (td.padding s).length = td.padding_length ∧
    (td.padding_length ≤ s.length → td.padding s = s.take td.padding_length) ∧
    (s.length ≤ td.padding_length →
      td.padding s = s ++ List.replicate (td.padding_length - s.length) 0) ∧
    td.padding (td.padding s) = td.padding s := by
  refine ⟨padding_length_eq td s, ?_, padding_eq_of_le td s, ?_⟩
  · intro h
    have hlen : (s.take td.padding_length).length = td.padding_length := by
      simp [List.length_take]
      omega
    simp only [TrainingDataset.padding, hlen, Nat.sub_self, List.replicate_zero,
      List.append_nil]
  · have h1 := padding_length_eq td s
    rw [padding_eq_of_le td (td.padding s) (le_of_eq h1), h1, Nat.sub_self,
      List.replicate_zero, List.append_nil]

/-- C9 witness: the padding properties instantiated on a concrete sequence. -/
theorem padding_spec_witness :
    TD10.padding (TD10.padding [1, 2, 3]) = TD10.padding [1, 2, 3] :=
  (padding_spec TD10 [1, 2, 3]).2.2.2

/-- C10: a paragraph yields at most one emitted example per input text unit,
and the empty paragraph yields no examples at all. -/
theorem paragraph_process_count_le {S : Type} (td : TrainingDataset)
    (sentence : S → List Nat × List Nat) (texts : List S) :
    (td.paragraph_process sentence texts).length ≤ texts.length ∧
    td.paragraph_process sentence ([] : List S) = [] := by
  constructor
  · have := paragraph_foldl_length_le td sentence texts [] [td.token_cls_id] [0]
    simpa [TrainingDataset.paragraph_process, TrainingDataset.paragraph_processFull]
      using this
  · rfl

/-- C1: accumulator content never closed by an overflow event is dropped: the
spec's concrete capacity-10 instance with units `([5,6,7],[0,0,0])` and
`([8,9,10,11,12],[0,1,0,0,0])` emits no example, and in general a paragraph
whose accumulated (truncated) content never fires the overflow check
contributes zero emitted examples. -/
theorem paragraph_process_drops_tail :
    (TD10.paragraph_process id
      [([5,6,7],[0,0,0]), ([8,9,10,11,12],[0,1,0,0,0])] = []) ∧
    ∀ {S : Type} (td : TrainingDataset) (sentence : S → List Nat × List Nat)
      (texts : List S),
      1 + (texts.map
        (fun x => min (td.padding_length - 2) (sentence x).1.length)).sum ≤
        td.padding_length - 1 →
      td.paragraph_process sentence texts = [] := by
  constructor
  · decide
  · intro S td sentence texts h
    apply paragraph_foldl_no_overflow
    simpa using h

/-- C1 witness: the general no-overflow statement applied to the spec's
concrete instance. -/
theorem paragraph_process_drops_tail_witness :
    (1 + (([([5,6,7],[0,0,0]), ([8,9,10,11,12],[0,1,0,0,0])] :
        List (List Nat × List Nat)).map
      (fun x => min (TD10.padding_length - 2) (id x : List Nat × List Nat).1.length)).sum ≤
      TD10.padding_length - 1) ∧
    TD10.paragraph_process id
      [([5,6,7],[0,0,0]), ([8,9,10,11,12],[0,1,0,0,0])] = [] :=
  ⟨by decide, paragraph_process_drops_tail.2 TD10 id
    [([5,6,7],[0,0,0]), ([8,9,10,11,12],[0,1,0,0,0])] (by decide)⟩

/-- C2: the spec's overflow-triggered emission example with capacity 10 and
three units of token-length 4 each: unit 1 and unit 2 fit (accumulator
lengths 5 and 9), unit 3 fires the overflow check, so a SEP id with mask 0
is appended, both sequences are padded to length 10, exactly one example
`CLS + unit1 + unit2 + SEP` is emitted, and the accumulator is reset to
`([CLS_id], [0])` before unit 3 is appended to it. -/
theorem paragraph_process_overflow_example :
    TD10.paragraph_processFull wunits [0] =
      ([], ([1,3,4,5,6], [0,0,0,0,0])) ∧
    TD10.paragraph_processFull wunits [0, 1] =
      ([], ([1,3,4,5,6,11,12,13,14], [0,0,0,0,0,0,0,1,0])) ∧
    TD10.paragraphStep ([], ([1,3,4,5,6,11,12,13,14], [0,0,0,0,0,0,0,1,0]))
        ([21,22,23,24], [0,0,0,0]) =
      ([([1,3,4,5,6,11,12,13,14,2], [0,0,0,0,0,0,0,1,0,0])],
       ([1,21,22,23,24], [0,0,0,0,0])) ∧
    TD10.paragraph_process wunits [0, 1, 2] =
      [([1,3,4,5,6,11,12,13,14,2], [0,0,0,0,0,0,0,1,0,0])] := by
  refine ⟨by decide, by decide, by decide, by decide⟩

/-- Every element of the result list of the paragraph fold is either already
in the initial results or has the emitted close-pad shape. -/
lemma mem_paragraph_foldl {S : Type} (td : TrainingDataset)
    (sentence : S → List Nat × List Nat) :
    ∀ (texts : List S) (results : List (List Nat × List Nat)) (t m : List Nat)
      (p : List Nat × List Nat),
      p ∈ (texts.foldl (fun st x => td.paragraphStep st (sentence x))
        (results, t, m)).1 →
      p ∈ results ∨ ∃ t' m',
        p = (td.padding (t' ++ [td.token_sep_id]), td.padding (m' ++ [0])) := by
  intro texts
  induction texts with
  | nil => intro results t m p hp; exact Or.inl hp
  | cons x xs ih =>
    intro results t m p hp
    simp only [List.foldl_cons] at hp
    by_cases h : td.padding_length - 1 <
        t.length + ((sentence x).1.take (td.padding_length - 2)).length
    · rw [paragraphStep_overflow td results t m (sentence x) h] at hp
      rcases ih _ _ _ p hp with hmem | hex
      · rcases List.mem_append.mp hmem with hl | hr
        · exact Or.inl hl
        · refine Or.inr ⟨t, m, ?_⟩
          simpa using hr
      · exact Or.inr hex
    · rw [paragraphStep_fits td results t m (sentence x) h] at hp
      exact ih _ _ _ p hp

/-- C3: every emitted PackedExample has both sequences of length exactly
`padding_length` (the `capacity`), given unit encodings with equal-length
token and mask sequences. -/
theorem paragraph_process_length_invariant {S : Type} (td : TrainingDataset)
    (sentence : S → List Nat × List Nat) (texts : List S)
    (_hbal : ∀ x, (sentence x).1.length = (sentence x).2.length) :
    ∀ p ∈ td.paragraph_process sentence texts,
      p.1.length = td.padding_length ∧ p.2.length = td.padding_length := by
  intro p hp
  rcases mem_paragraph_foldl td sentence texts [] [td.token_cls_id] [0] p hp with
    hmem | ⟨t', m', rfl⟩
  · exact absurd hmem (List.not_mem_nil p)
  · exact ⟨padding_length_eq td _, padding_length_eq td _⟩

/-- C3 witness: the length invariant at the concrete capacity-10 instance. -/
theorem paragraph_process_length_invariant_witness :
    (∀ x : Fin 3, (wunits x).1.length = (wunits x).2.length) ∧
    (([1,3,4,5,6,11,12,13,14,2], [0,0,0,0,0,0,0,1,0,0]) ∈
      TD10.paragraph_process wunits [0, 1, 2]) ∧
    (([1,3,4,5,6,11,12,13,14,2] : List Nat).length = TD10.padding_length ∧
     ([0,0,0,0,0,0,0,1,0,0] : List Nat).length = TD10.padding_length) :=
  ⟨by decide, by decide,
   paragraph_process_length_invariant TD10 wunits [0, 1, 2] (by decide)
     ([1,3,4,5,6,11,12,13,14,2], [0,0,0,0,0,0,0,1,0,0]) (by decide)⟩

/-- The accumulator invariant holds initially and is preserved by every loop
iteration; every emitted example is the close-pad of an invariant-satisfying
accumulator. -/
lemma mem_paragraph_foldl_inv {S : Type} (td : TrainingDataset)
    (sentence : S → List Nat × List Nat)
    (hL : 2 ≤ td.padding_length)
    (hbal : ∀ x, (sentence x).1.length = (sentence x).2.length) :
    ∀ (texts : List S) (results : List (List Nat × List Nat)) (t m : List Nat),
      AccInv td t m →
      ∀ p ∈ (texts.foldl (fun st x => td.paragraphStep st (sentence x))
        (results, t, m)).1,
      p ∈ results ∨ ∃ t' m', AccInv td t' m' ∧
        p = (td.padding (t' ++ [td.token_sep_id]), td.padding (m' ++ [0])) := by
  intro texts
  induction texts with
  | nil => intro results t m _ p hp; exact Or.inl hp
  | cons x xs ih =>
    intro results t m hinv p hp
    simp only [List.foldl_cons] at hp
    have htk : ((sentence x).1.take (td.padding_length - 2)).length =
        min (td.padding_length - 2) (sentence x).1.length := by
      simp [List.length_take]
    have hmk : ((sentence x).2.take (td.padding_length - 2)).length =
        min (td.padding_length - 2) (sentence x).2.length := by
      simp [List.length_take]
    by_cases h : td.padding_length - 1 <
        t.length + ((sentence x).1.take (td.padding_length - 2)).length
    · rw [paragraphStep_overflow td results t m (sentence x) h] at hp
      have hinv' : AccInv td
          (td.token_cls_id :: (sentence x).1.take (td.padding_length - 2))
          (0 :: (sentence x).2.take (td.padding_length - 2)) := by
        refine ⟨?_, ?_, ⟨_, rfl⟩, ⟨_, rfl⟩⟩
        · simp only [List.length_cons, htk, hmk, hbal x]
        · simp only [List.length_cons, htk]; omega
      rcases ih _ _ _ hinv' p hp with hmem | hex
      · rcases List.mem_append.mp hmem with hl | hr
        · exact Or.inl hl
        · refine Or.inr ⟨t, m, hinv, ?_⟩
          simpa using hr
      · exact Or.inr hex
    · rw [paragraphStep_fits td results t m (sentence x) h] at hp
      obtain ⟨hlen, hle, ⟨t0, ht⟩, ⟨m0, hm⟩⟩ := hinv
      have hinv' : AccInv td (t ++ (sentence x).1.take (td.padding_length - 2))
          (m ++ (sentence x).2.take (td.padding_length - 2)) := by
        refine ⟨?_, ?_, ⟨t0 ++ (sentence x).1.take (td.padding_length - 2),
          by rw [ht, List.cons_append]⟩,
          ⟨m0 ++ (sentence x).2.take (td.padding_length - 2),
          by rw [hm, List.cons_append]⟩⟩
        · simp only [List.length_append, htk, hmk, hlen, hbal x]
        · simp only [List.length_append] at h ⊢
          omega
      exact ih _ _ _ hinv' p hp

/-- Counterexample to C4 as stated: in the capacity-10 run that emits
`([1,3,4,5,6,11,12,13,14,2], [0,0,0,0,0,0,0,1,0,0])`, position 9 is beyond
the content (it is the appended SEP position), yet the token-id sequence
holds the SEP id 2 there, not 0. -/
theorem paragraph_process_sep_position_counterexample :
    (TD10.paragraph_process wunits [0, 1, 2]).getD 0 ([], []) =
      ([1,3,4,5,6,11,12,13,14,2], [0,0,0,0,0,0,0,1,0,0]) ∧
    ((TD10.paragraph_process wunits [0, 1, 2]).getD 0 ([], [])).1.getD 9 0 ≠ 0 := by
  refine ⟨by decide, by decide⟩

/-- C4 (amended): for every emitted PackedExample there is a SEP position `n`
(`1 ≤ n < capacity`): the token sequence holds the SEP id at `n` and 0 at
every position strictly beyond `n` (the padded positions); the mask sequence
holds 0 at position 0 (CLS) and at every position from `n` on (the SEP and
padded positions) — so the mask-indicator is never 1 at the CLS, SEP or
padded positions, and the token sequence is 0 at the padded positions, but
at the SEP position it holds the SEP id, not 0. -/
theorem paragraph_process_padding_invariant {S : Type} (td : TrainingDataset)
    (sentence : S → List Nat × List Nat) (texts : List S)
    (hL : 2 ≤ td.padding_length)
    (hbal : ∀ x, (sentence x).1.length = (sentence x).2.length) :
    ∀ p ∈ td.paragraph_process sentence texts,
      ∃ n, 1 ≤ n ∧ n < td.padding_length ∧
        p.1.getD n 0 = td.token_sep_id ∧
        (∀ i, n < i → p.1.getD i 0 = 0) ∧
        p.2.getD 0 0 = 0 ∧
        (∀ i, n ≤ i → p.2.getD i 0 = 0) := by
  intro p hp
  have hinit : AccInv td [td.token_cls_id] [0] :=
    ⟨rfl, by simp only [List.length_singleton]; omega, ⟨[], rfl⟩, ⟨[], rfl⟩⟩
  rcases mem_paragraph_foldl_inv td sentence hL hbal texts [] [td.token_cls_id] [0]
      hinit p hp with hmem | ⟨t', m', ⟨hlen, hle, ⟨t0, ht⟩, ⟨m0, hm⟩⟩, rfl⟩
  · exact absurd hmem (List.not_mem_nil p)
  · have hlen1 : (t' ++ [td.token_sep_id]).length = t'.length + 1 := by simp
    have hlen2 : (m' ++ [0]).length = t'.length + 1 := by simp [← hlen]
    have e1 : td.padding (t' ++ [td.token_sep_id]) =
        (t' ++ [td.token_sep_id]) ++
          List.replicate (td.padding_length - (t'.length + 1)) 0 := by
      rw [padding_eq_of_le td _ (by rw [hlen1]; omega), hlen1]
    have e2 : td.padding (m' ++ [0]) =
        (m' ++ [0]) ++
          List.replicate (td.padding_length - (t'.length + 1)) 0 := by
      rw [padding_eq_of_le td _ (by rw [hlen2]; omega), hlen2]
    refine ⟨t'.length, by simp [ht], by omega, ?_, ?_, ?_, ?_⟩
    · show (td.padding (t' ++ [td.token_sep_id])).getD t'.length 0 = td.token_sep_id
      rw [e1, List.append_assoc,
        List.getD_append_right t' _ 0 t'.length (Nat.le_refl _), Nat.sub_self]
      rfl
    · intro i hi
      show (td.padding (t' ++ [td.token_sep_id])).getD i 0 = 0
      rw [e1, List.getD_append_right (t' ++ [td.token_sep_id]) _ 0 i
        (by rw [hlen1]; omega)]
      exact getD_replicate_zero _ _
    · show (td.padding (m' ++ [0])).getD 0 0 = 0
      rw [e2, hm]
      rfl
    · intro i hi
      show (td.padding (m' ++ [0])).getD i 0 = 0
      rw [e2, List.append_assoc,
        List.getD_append_right m' _ 0 i (by rw [← hlen]; exact hi)]
      have hrep : ([0] : List Nat) ++
          List.replicate (td.padding_length - (t'.length + 1)) 0 =
          List.replicate (td.padding_length - (t'.length + 1) + 1) 0 := rfl
      rw [hrep]
      exact getD_replicate_zero _ _

/-- C4 witness: the amended padding invariant at the concrete capacity-10
instance. -/
theorem paragraph_process_padding_invariant_witness :
    (2 ≤ TD10.padding_length) ∧
    (∀ x : Fin 3, (wunits x).1.length = (wunits x).2.length) ∧
    (([1,3,4,5,6,11,12,13,14,2], [0,0,0,0,0,0,0,1,0,0]) ∈
      TD10.paragraph_process wunits [0, 1, 2]) ∧
    (∃ n, 1 ≤ n ∧ n < TD10.padding_length ∧
      (([1,3,4,5,6,11,12,13,14,2] : List Nat)).getD n 0 = TD10.token_sep_id ∧
      (∀ i, n < i → (([1,3,4,5,6,11,12,13,14,2] : List Nat)).getD i 0 = 0) ∧
      (([0,0,0,0,0,0,0,1,0,0] : List Nat)).getD 0 0 = 0 ∧
      (∀ i, n ≤ i → (([0,0,0,0,0,0,0,1,0,0] : List Nat)).getD i 0 = 0)) :=
  ⟨by decide, by decide, by decide,
   paragraph_process_padding_invariant TD10 wunits [0, 1, 2] (by decide) (by decide)
     ([1,3,4,5,6,11,12,13,14,2], [0,0,0,0,0,0,0,1,0,0]) (by decide)⟩

/-- A fold that extends two parallel accumulators equals the concatenation of
the per-element contributions. -/
lemma foldl_extend_pair {A B C : Type} (f : A → List B) (g : A → List C) :
    ∀ (l : List A) (acc : List B × List C),
      l.foldl (fun acc a => (acc.1 ++ f a, acc.2 ++ g a)) acc =
        (acc.1 ++ (l.map f).flatten, acc.2 ++ (l.map g).flatten) := by
  intro l
  induction l with
  | nil => intro acc; simp
  | cons x xs ih =>
    intro acc
    simp only [List.foldl_cons, ih, List.map_cons, List.flatten_cons,
      List.append_assoc]

/-- Closed form of `sentence_process`: the token ids are the id conversion of
the in-order concatenation of the per-word sub-token runs, and the mask ids
are the concatenation of the per-word constant runs. -/
lemma sentence_process_eq {S W T : Type} (td : TrainingDataset)
    (word_segment : S → List W) (tokenize : W → List T)
    (tokens_to_ids : List T → List Nat) (rands : List ℚ) (text : S) :
    td.sentence_process word_segment tokenize tokens_to_ids rands text =
      (tokens_to_ids
        ((rands.zip (word_segment text)).map (fun rw => tokenize rw.2)).flatten,
       ((rands.zip (word_segment text)).map
         (fun rw => List.replicate (tokenize rw.2).length
           (if rw.1 ≤ td.mask_rate then 1 else 0))).flatten) := by
  simp only [TrainingDataset.sentence_process]
  rw [foldl_extend_pair (fun rw : ℚ × W => tokenize rw.2)
    (fun rw : ℚ × W => List.replicate (tokenize rw.2).length
      (if rw.1 ≤ td.mask_rate then 1 else 0))]
  simp

/-- C5: the mask-indicator sequence produced by `sentence_process` is exactly
the concatenation, in word order, of one constant run per word — every
sub-token of a word carries the word's single mask decision, which is 1 iff
the word's random draw is ≤ `mask_rate`. -/
theorem sentence_process_whole_word_mask {S W T : Type} (td : TrainingDataset)
    (word_segment : S → List W) (tokenize : W → List T)
    (tokens_to_ids : List T → List Nat) (rands : List ℚ) (text : S) :
    (td.sentence_process word_segment tokenize tokens_to_ids rands text).2 =
      ((rands.zip (word_segment text)).map
        (fun rw => List.replicate (tokenize rw.2).length
          (if rw.1 ≤ td.mask_rate then 1 else 0))).flatten := by
  rw [sentence_process_eq]

/-- C6: with one random draw per word and a length-preserving token-to-id
conversion, `sentence_process` returns equal-length sequences, and its token
ids are exactly the id conversion of the in-order concatenation of the
per-word tokenizations — no CLS/SEP or any other token is inserted. -/
theorem sentence_process_output_shape {S W T : Type} (td : TrainingDataset)
    (word_segment : S → List W) (tokenize : W → List T)
    (tokens_to_ids : List T → List Nat) (rands : List ℚ) (text : S)
    (hlen : ∀ ts : List T, (tokens_to_ids ts).length = ts.length)
    (hr : rands.length = (word_segment text).length) :
    (td.sentence_process word_segment tokenize tokens_to_ids rands text).1.length =
      (td.sentence_process word_segment tokenize tokens_to_ids rands text).2.length ∧
    (td.sentence_process word_segment tokenize tokens_to_ids rands text).1 =
      tokens_to_ids ((word_segment text).map tokenize).flatten := by
  have hz : (rands.zip (word_segment text)).map (fun rw => tokenize rw.2) =
      (word_segment text).map tokenize := by
    have hsnd : (rands.zip (word_segment text)).map Prod.snd = word_segment text :=
      List.map_snd_zip rands (word_segment text) (le_of_eq hr.symm)
    calc (rands.zip (word_segment text)).map (fun rw => tokenize rw.2)
        = ((rands.zip (word_segment text)).map Prod.snd).map tokenize := by
          rw [List.map_map]; rfl
      _ = (word_segment text).map tokenize := by rw [hsnd]
  constructor
  · rw [sentence_process_eq]
    simp only [hlen, List.length_flatten, List.map_map]
    congr 1
    apply List.map_congr_left
    intro rw _
    simp
  · rw [sentence_process_eq, hz]

/-- C6 witness: the output-shape guarantee at a concrete two-word unit. -/
theorem sentence_process_output_shape_witness :
    (∀ ts : List Nat, (wids ts).length = ts.length) ∧
    (([0, 1/2] : List ℚ).length = (wseg ()).length) ∧
    ((TD10.sentence_process wseg wtok wids [0, 1/2] ()).1.length =
      (TD10.sentence_process wseg wtok wids [0, 1/2] ()).2.length ∧
     (TD10.sentence_process wseg wtok wids [0, 1/2] ()).1 =
      wids ((wseg ()).map wtok).flatten) :=
  ⟨fun _ => rfl, rfl,
   sentence_process_output_shape TD10 wseg wtok wids [0, 1/2] ()
     (fun _ => rfl) rfl⟩

/-- C7: decoding the record produced by encoding a well-formed PackedExample
(both sequences exactly `capacity` long) yields the original example. -/
theorem tfrecord_roundtrip (capacity : Nat) (tk mk : List Nat)
    (h1 : tk.length = capacity) (h2 : mk.length = capacity) :
    parse_function capacity (tfrecord_serialize_one (tk, mk)) = some (tk, mk) := by
  simp [parse_function, tfrecord_serialize_one, FixedLenFeature, h1, h2]

/-- C7 witness: the round trip at a concrete capacity-3 example. -/
theorem tfrecord_roundtrip_witness :
    (([1, 2, 3] : List Nat).length = 3) ∧ (([0, 1, 0] : List Nat).length = 3) ∧
    parse_function 3 (tfrecord_serialize_one ([1, 2, 3], [0, 1, 0])) =
      some ([1, 2, 3], [0, 1, 0]) :=
  ⟨rfl, rfl, tfrecord_roundtrip 3 [1, 2, 3] [0, 1, 0] rfl rfl⟩

/-- C8: decoding succeeds exactly on records whose two integer-array fields
both have length equal to the configured capacity; it fails whenever either
length differs. -/
theorem parse_function_fixed_length (capacity : Nat) (e : TFExample) :
    (parse_function capacity e).isSome = true ↔
      (e.token_ids.length = capacity ∧ e.mask_ids.length = capacity) := by
  unfold parse_function FixedLenFeature
  by_cases h1 : e.token_ids.length = capacity <;>
    by_cases h2 : e.mask_ids.length = capacity <;>
    simp [h1, h2]
